import Mathlib

/-!
Verification of the `unicode-width` crate: displayed-column widths of Unicode
code points and strings, per UAX #11.

The string-level summation (`str_width`) is embedded from `src/lib.rs`
(`UnicodeWidthStr for str`): the width of a string is the sum over its code
points of the per-character width, with `None` absorbed as `0`.

The per-character lookup lives in the crate's generated `tables` module
(`tables::charwidth::width` and its range tables), which is not part of the
sources here; those definitions are modelled from the specification instead
and are marked as such in their doc comments.
-/

namespace UnicodeWidth

/-- Width classes carried by entries of the underlying classification data,
before the CJK/non-CJK context is applied. `ambiguous` marks ranges of the
East Asian Width Ambiguous category, whose resolution depends on context. -/
inductive TableClass where
  | zero
  | one
  | two
  | ambiguous
deriving DecidableEq

/-- Resolved width classes: the classification result for a non-control code
point found in a table entry (`Zero`, `One`, `Two` in the specification). -/
inductive WidthClass where
  | zero
  | one
  | two
deriving DecidableEq

/-- A classification-range entry with inclusive bounds and an unresolved
(context-independent) class. -/
structure RangeEntry where
  low : Nat
  high : Nat
  cls : TableClass
deriving DecidableEq

/-- A range entry of one of the two context-resolved tables. -/
structure WEntry where
  low : Nat
  high : Nat
  cls : WidthClass
deriving DecidableEq

/-- Modelled from the spec: the underlying classification data of the missing
`tables` module, as an ordered non-overlapping list of inclusive ranges.
The full generated table has thousands of mechanically generated rows; the
spec treats it as an external input and fixes only representative content:
combining marks are `Zero` (U+0300..U+036F), the subscript digits
U+2081..U+2084 are Ambiguous-category, and the fullwidth forms containing
'ｈ' (U+FF48) are `Two`. Everything not listed falls in a gap and defaults
to width one. -/
def base_table : List RangeEntry :=
  [⟨0x300, 0x36F, TableClass.zero⟩,
   ⟨0x2081, 0x2084, TableClass.ambiguous⟩,
   ⟨0xFF01, 0xFF60, TableClass.two⟩]

/-- Modelled from the spec: resolution of a table class under a context flag.
Ambiguous-category ranges are classified `One` in non-CJK context and `Two`
in CJK context; all other classes are context-independent. -/
def resolveClass (is_cjk : Bool) : TableClass → WidthClass
  | TableClass.zero => WidthClass.zero
  | TableClass.one => WidthClass.one
  | TableClass.two => WidthClass.two
  | TableClass.ambiguous => if is_cjk then WidthClass.two else WidthClass.one

/-- Modelled from the spec: the two immutable context-resolved range tables
are obtained from the same underlying data, differing only in how
Ambiguous-category ranges are classified. -/
def mkTable (is_cjk : Bool) : List WEntry :=
  base_table.map (fun e => ⟨e.low, e.high, resolveClass is_cjk e.cls⟩)

/-- Modelled from the spec: the table used for non-CJK context. -/
def charwidth_table : List WEntry := mkTable false

/-- Modelled from the spec: the table used for CJK context. -/
def charwidth_table_cjk : List WEntry := mkTable true

/-- The context-appropriate table. -/
def tableFor (is_cjk : Bool) : List WEntry :=
  if is_cjk then charwidth_table_cjk else charwidth_table

/-- Modelled from the spec: the range-table lookup contract —
`Some class` when the code point falls within an explicit entry, `none` when
it falls in a gap. (The missing `tables` module realises this as a binary
search over the sorted non-overlapping entries; over such a table the
first-match scan below is observably the same function.) -/
def lookup : List WEntry → Nat → Option WidthClass
  | [], _ => none
  | e :: rest, c =>
    if e.low ≤ c ∧ c ≤ e.high then some e.cls else lookup rest c

/-- The numeric column width of a resolved class: `Zero→0, One→1, Two→2`. -/
def widthOf : WidthClass → Nat
  | WidthClass.zero => 0
  | WidthClass.one => 1
  | WidthClass.two => 2

/-- Modelled from the spec: `char_width(code_point, is_cjk)`, the contract of
the missing `tables::charwidth::width`. Returns `Some 0` for U+0000, `none`
for any other control character (category Cc, i.e. `[0x00,0x1F] ∪
[0x7F,0x9F]`), and otherwise the looked-up resolved width with gaps
defaulting to width one. -/
def char_width (c : Nat) (is_cjk : Bool) : Option Nat :=
  if c = 0 then some 0
  else if c ≤ 0x1F ∨ (0x7F ≤ c ∧ c ≤ 0x9F) then none
  else
    match lookup (tableFor is_cjk) c with
    | some cls => some (widthOf cls)
    | none => some 1

/-- From `src/lib.rs` (`UnicodeWidthStr for str`): the displayed width of a
string is the sum over its code points, in sequence order, of the
per-character width with `None` replaced by `0`:
`self.chars().map(|c| cw::width(c, is_cjk).unwrap_or(0)).sum()`.
A string is embedded as its sequence of Unicode scalar values. -/
def str_width (s : List Nat) (is_cjk : Bool) : Nat :=
  (s.map (fun c => (char_width c is_cjk).getD 0)).sum

/-- A code point lies in an Ambiguous-category range of the classification
data. -/
def inAmbiguous (c : Nat) : Prop :=
  ∃ e ∈ base_table, e.cls = TableClass.ambiguous ∧ e.low ≤ c ∧ c ≤ e.high

instance (c : Nat) : Decidable (inAmbiguous c) := by
  unfold inAmbiguous; infer_instance

/-- The largest tabulated inclusive high bound of a table. -/
def tableMaxHigh (t : List WEntry) : Nat :=
  (t.map (fun e => e.high)).foldr max 0

/-- Strictly increasing by low bound. -/
def strictlyIncreasingLow (t : List WEntry) : Prop :=
  t.Pairwise (fun a b => a.low < b.low)

/-- No two entries overlap (as inclusive ranges). -/
def noOverlap (t : List WEntry) : Prop :=
  t.Pairwise (fun a b => a.high < b.low ∨ b.high < a.low)

/-- Every entry has `low ≤ high`. -/
def boundsWellFormed (t : List WEntry) : Prop :=
  ∀ e ∈ t, e.low ≤ e.high

instance (t : List WEntry) : Decidable (strictlyIncreasingLow t) := by
  unfold strictlyIncreasingLow; infer_instance

instance (t : List WEntry) : Decidable (noOverlap t) := by
  unfold noOverlap; infer_instance

instance (t : List WEntry) : Decidable (boundsWellFormed t) := by
  unfold boundsWellFormed; infer_instance

lemma lookup_cons (e : WEntry) (rest : List WEntry) (c : Nat) :
    lookup (e :: rest) c =
      if e.low ≤ c ∧ c ≤ e.high then some e.cls else lookup rest c := rfl

lemma lookup_nil (c : Nat) : lookup [] c = none := rfl

/-- Closed form of the per-character width over the modelled tables. -/
lemma char_width_eq (c : Nat) (k : Bool) : char_width c k =
    if c = 0 then some 0
    else if c ≤ 0x1F ∨ (0x7F ≤ c ∧ c ≤ 0x9F) then none
    else if 0x300 ≤ c ∧ c ≤ 0x36F then some 0
    else if 0x2081 ≤ c ∧ c ≤ 0x2084 then (if k then some 2 else some 1)
    else if 0xFF01 ≤ c ∧ c ≤ 0xFF60 then some 2
    else some 1 := by
  cases k <;>
    simp only [char_width, tableFor, charwidth_table, charwidth_table_cjk, mkTable,
      base_table, List.map, resolveClass, lookup_cons, lookup_nil,
      Bool.false_eq_true, if_true, if_false] <;>
    split_ifs <;> simp_all [widthOf]

/-- Closed form of the lookup over the modelled resolved tables. -/
lemma lookup_tableFor_eq (c : Nat) (k : Bool) : lookup (tableFor k) c =
    if 0x300 ≤ c ∧ c ≤ 0x36F then some WidthClass.zero
    else if 0x2081 ≤ c ∧ c ≤ 0x2084 then
      (if k then some WidthClass.two else some WidthClass.one)
    else if 0xFF01 ≤ c ∧ c ≤ 0xFF60 then some WidthClass.two
    else none := by
  cases k <;>
    simp only [tableFor, charwidth_table, charwidth_table_cjk, mkTable,
      base_table, List.map, resolveClass, lookup_cons, lookup_nil,
      Bool.false_eq_true, if_true, if_false]

/-- `char_width_eq` specialised to the non-CJK context. -/
lemma char_width_false_eq (c : Nat) : char_width c false =
    if c = 0 then some 0
    else if c ≤ 0x1F ∨ (0x7F ≤ c ∧ c ≤ 0x9F) then none
    else if 0x300 ≤ c ∧ c ≤ 0x36F then some 0
    else if 0x2081 ≤ c ∧ c ≤ 0x2084 then some 1
    else if 0xFF01 ≤ c ∧ c ≤ 0xFF60 then some 2
    else some 1 := by
  rw [char_width_eq]; simp

/-- `char_width_eq` specialised to the CJK context. -/
lemma char_width_true_eq (c : Nat) : char_width c true =
    if c = 0 then some 0
    else if c ≤ 0x1F ∨ (0x7F ≤ c ∧ c ≤ 0x9F) then none
    else if 0x300 ≤ c ∧ c ≤ 0x36F then some 0
    else if 0x2081 ≤ c ∧ c ≤ 0x2084 then some 2
    else if 0xFF01 ≤ c ∧ c ≤ 0xFF60 then some 2
    else some 1 := by
  rw [char_width_eq]; simp

lemma inAmbiguous_iff (c : Nat) :
    inAmbiguous c ↔ 0x2081 ≤ c ∧ c ≤ 0x2084 := by
  simp [inAmbiguous, base_table]

/-- Per-character monotonicity: the CJK width of a code point is at least its
non-CJK width, once `None` is absorbed as `0`. -/
lemma char_width_mono (c : Nat) :
    (char_width c false).getD 0 ≤ (char_width c true).getD 0 := by
  rw [char_width_false_eq, char_width_true_eq]
  split_ifs <;> simp

/-- `str_width` consumes the head code point, then the tail. -/
lemma str_width_cons (c : Nat) (t : List Nat) (ctx : Bool) :
    str_width (c :: t) ctx = (char_width c ctx).getD 0 + str_width t ctx := by
  simp [str_width]

/-- C1: `str_width` is the sum, over the code points of the string in
sequence order, of `char_width` with `0` substituted for `None`; in
particular the width of the empty string is `0`. -/
theorem str_width_is_sum_of_char_widths (s : List Nat) (ctx : Bool) :
    str_width s ctx = (s.map (fun c => (char_width c ctx).getD 0)).sum ∧
    str_width [] ctx = 0 ∧
    ∀ (c : Nat) (t : List Nat),
      str_width (c :: t) ctx = (char_width c ctx).getD 0 + str_width t ctx :=
  ⟨rfl, rfl, fun c t => str_width_cons c t ctx⟩

/-- C2: the non-CJK and CJK per-character widths agree on every code point
outside the Ambiguous-category ranges; on an Ambiguous-category code point
the CJK width is `Some 2` and the non-CJK width is `Some 1`. -/
theorem char_width_cjk_agreement (c : Nat) :
    (¬ inAmbiguous c → char_width c false = char_width c true) ∧
    (inAmbiguous c → char_width c true = some 2 ∧ char_width c false = some 1) := by
  rw [inAmbiguous_iff, char_width_false_eq, char_width_true_eq]
  constructor
  · intro h
    split_ifs <;> rfl
  · intro h
    split_ifs <;> first | exact ⟨rfl, rfl⟩ | (exfalso; omega)

/-- C2 witness: at the Ambiguous subscript digit U+2081 the CJK width is
`Some 2` and the non-CJK width is `Some 1`. -/
theorem char_width_cjk_agreement_witness :
    inAmbiguous 0x2081 ∧
      (char_width 0x2081 true = some 2 ∧ char_width 0x2081 false = some 1) :=
  ⟨by decide, (char_width_cjk_agreement 0x2081).2 (by decide)⟩

/-- C3: U+0000 has width `Some 0` in both contexts, although it is a control
character. -/
theorem char_width_null (ctx : Bool) :
    char_width 0 ctx = some 0 ∧ (0 ≤ 0x1F ∨ (0x7F ≤ 0 ∧ 0 ≤ 0x9F)) := by
  cases ctx <;> exact ⟨rfl, Or.inl (by omega)⟩

/-- C4: `char_width` returns `None` exactly on the control code points in
`[0x01, 0x1F] ∪ [0x7F, 0x9F]` (so not on U+0000), for both context flags:
the single domain-level error condition, modelled as optional absence. -/
theorem char_width_none_iff_control (c : Nat) (ctx : Bool) :
    char_width c ctx = none ↔
      ((0x01 ≤ c ∧ c ≤ 0x1F) ∨ (0x7F ≤ c ∧ c ≤ 0x9F)) := by
  rw [char_width_eq c ctx]
  constructor
  · intro h
    split_ifs at h
    all_goals omega
  · intro h
    split_ifs <;> first | rfl | (exfalso; omega)

/-- C5: for a non-control code point, `char_width` returns `Some` of the
looked-up class's width (`Zero→0, One→1, Two→2`) when the context-appropriate
table has an entry containing it, and `Some 1` when it falls in a gap; code
points above the highest tabulated high bound always fall in the gap. -/
theorem char_width_lookup_contract (c : Nat) (ctx : Bool)
    (h : ¬ (c ≤ 0x1F ∨ (0x7F ≤ c ∧ c ≤ 0x9F))) :
    char_width c ctx = some (((lookup (tableFor ctx) c).map widthOf).getD 1) ∧
    (tableMaxHigh (tableFor ctx) < c → lookup (tableFor ctx) c = none) := by
  constructor
  · have hc0 : ¬ c = 0 := by omega
    unfold char_width
    rw [if_neg hc0, if_neg h]
    rcases hl : lookup (tableFor ctx) c with _ | cls <;> simp [hl]
  · intro hmax
    have hm : tableMaxHigh (tableFor ctx) = 0xFF60 := by
      cases ctx <;> rfl
    rw [hm] at hmax
    rw [lookup_tableFor_eq]
    split_ifs <;> first | rfl | (exfalso; omega)

/-- C5 witness: U+0041 ('A') is non-control, falls in a gap of the table, and
gets the default width `Some 1`. -/
theorem char_width_lookup_contract_witness :
    (¬ (0x41 ≤ 0x1F ∨ (0x7F ≤ 0x41 ∧ 0x41 ≤ 0x9F))) ∧
    (char_width 0x41 false =
        some (((lookup (tableFor false) 0x41).map widthOf).getD 1) ∧
      (tableMaxHigh (tableFor false) < 0x41 →
        lookup (tableFor false) 0x41 = none)) :=
  ⟨by decide, char_width_lookup_contract 0x41 false (by decide)⟩

/-- C6: both resolved range tables are strictly increasing by low bound,
have no overlapping entries, and every entry has `low ≤ high`. -/
theorem tables_well_formed :
    (strictlyIncreasingLow charwidth_table ∧ noOverlap charwidth_table ∧
      boundsWellFormed charwidth_table) ∧
    (strictlyIncreasingLow charwidth_table_cjk ∧ noOverlap charwidth_table_cjk ∧
      boundsWellFormed charwidth_table_cjk) := by
  decide

/-- C7: the subscript digits "₁₂₃₄" (U+2081..U+2084) have string width 4 in
non-CJK context and 8 in CJK context, and correspondingly U+2081 has
per-character width `Some 1` / `Some 2`, because the subscript digits lie in
an Ambiguous-category range. -/
theorem subscript_digits_widths :
    str_width [0x2081, 0x2082, 0x2083, 0x2084] false = 4 ∧
    str_width [0x2081, 0x2082, 0x2083, 0x2084] true = 8 ∧
    char_width 0x2081 false = some 1 ∧
    char_width 0x2081 true = some 2 ∧
    inAmbiguous 0x2081 := by
  decide

/-- C8: `char_width` and `str_width` are deterministic pure functions of
their arguments and the fixed tables: identical arguments yield identical
results. (Freedom from side effects and hidden state is inherent to the
embedding: both are plain functions of their inputs and the static tables.) -/
theorem width_deterministic (c c' : Nat) (ctx ctx' : Bool)
    (s s' : List Nat) (hc : c = c') (hctx : ctx = ctx') (hs : s = s') :
    char_width c ctx = char_width c' ctx' ∧ str_width s ctx = str_width s' ctx' := by
  subst hc; subst hctx; subst hs; exact ⟨rfl, rfl⟩

/-- C8 witness: determinism instantiated at concrete arguments. -/
theorem width_deterministic_witness :
    (0x41 : Nat) = 0x41 ∧
    char_width 0x41 false = char_width 0x41 false ∧
      str_width [0x41] false = str_width [0x41] false :=
  ⟨rfl, (width_deterministic 0x41 0x41 false false [0x41] [0x41] rfl rfl rfl).1,
    (width_deterministic 0x41 0x41 false false [0x41] [0x41] rfl rfl rfl).2⟩

/-- C9: `str_width` is a homomorphism for string concatenation: the width of
`s ++ t` is the width of `s` plus the width of `t`, in either context. -/
theorem str_width_append (ctx : Bool) (s t : List Nat) :
    str_width (s ++ t) ctx = str_width s ctx + str_width t ctx := by
  simp [str_width]

/-- C10: switching from non-CJK to CJK context never decreases the computed
width of a string. -/
theorem str_width_cjk_ge (s : List Nat) :
    str_width s false ≤ str_width s true := by
  induction s with
  | nil => simp [str_width]
  | cons c t ih =>
    rw [str_width_cons c t false, str_width_cons c t true]
    exact Nat.add_le_add (char_width_mono c) ih

end UnicodeWidth
